import Mathlib

/-!
Verification of the F&O market-data engine (`upstox_fo_complete.py`).

Shallow embedding conventions:
* wall-clock time and token timestamps are rationals (seconds);
* the token file is explicit state of type `Option TokenRecord`
  (`none` = no persisted file);
* the interactive authorization round trip and the remote token-exchange
  endpoint are environment inputs (`AuthEnv`), so `get_auth_code`
  returning no code and a failed exchange are expressible;
* raised `RuntimeError`s become `Except` errors;
* pandas DataFrames become lists of `Row` records; a column that a
  function may add in place (`total_gamma`) is an `Option` field that is
  `none` while the column is absent.
-/

namespace UpstoxFO

/-! ## Auth session manager (`UpstoxAuth`) -/

/-- Persisted token record (`upstox_tokens.json`): the fields
`get_access_token` reads.  `expires_at` is optional because the code
reads it with `tokens.get("expires_at", 0)`. -/
structure TokenRecord where
  access_token : String
  expires_at : Option ℚ
  deriving DecidableEq, Repr

/-- Environment of an auth interaction: the wall clock, the outcome of
the interactive authorization round trip (`get_auth_code`), and the
token-exchange endpoint (`exchange_code_for_tokens`): `none` means the
provider response had no `access_token`. -/
structure AuthEnv where
  now : ℚ
  authCode : Option String
  exchangeToken : String → Option String

/-- The auth error taxonomy: every `RuntimeError` raised by the auth
manager means re-authentication is required (AuthRequired). -/
inductive AuthError where
  | authRequired (msg : String)
  deriving DecidableEq, Repr

/-- `UpstoxAuth.get_auth_code` followed by `exchange_code_for_tokens`:
the no-token branch of `get_access_token` (lines 163–168 and 136–160).
On success the produced record is persisted with
`expires_at = now + 24*3600`. -/
def acquire_new_token (env : AuthEnv) : Except AuthError (String × TokenRecord) :=
  match env.authCode with
  | none => .error (.authRequired "Authorization failed")
  | some code =>
    match env.exchangeToken code with
    | none => .error (.authRequired "Token exchange failed")
    | some tok => .ok (tok, { access_token := tok, expires_at := some (env.now + 24 * 3600) })

/-- `UpstoxAuth.get_access_token` (lines 162–178), returning the result
and the post-state of the token file.  The expired branch removes the
file and recurses; since the recursive call always lands in the
no-file branch, it is inlined as `acquire_new_token`. -/
def get_access_token (env : AuthEnv) (st : Option TokenRecord) :
    Except AuthError String × Option TokenRecord :=
  match st with
  | none =>
    match acquire_new_token env with
    | .error e => (.error e, none)
    | .ok (tok, rec) => (.ok tok, some rec)
  | some r =>
    if env.now > r.expires_at.getD 0 then
      match acquire_new_token env with
      | .error e => (.error e, none)
      | .ok (tok, rec) => (.ok tok, some rec)
    else
      (.ok r.access_token, some r)

/-! ## Market data client: `_make_api_call` -/

/-- One entry of the `errors` array of a provider envelope. -/
structure ErrEntry where
  errorCode : Option String
  deriving DecidableEq, Repr

/-- Provider JSON envelope `{status, errors, data}`; the payload type
varies per endpoint. -/
structure ApiResponse (α : Type) where
  status : String
  errors : List ErrEntry
  data : α
  deriving DecidableEq, Repr

/-- `errors and errors[0].get("errorCode") == "UDAPI100050"`
(lines 216–217). -/
def isInvalidTokenResponse {α : Type} (resp : ApiResponse α) : Bool :=
  resp.status == "error" &&
    (match resp.errors with
     | [] => false
     | e :: _ => e.errorCode == some "UDAPI100050")

/-- `UpstoxFOData._make_api_call` (lines 206–230).  `provider n` is
the provider's response to the n-th HTTP attempt of this logical call.
Returns the result (`.error` = the raised auth exception), the token
file post-state, and the number of HTTP attempts issued. -/
def make_api_call {α : Type} (env : AuthEnv) (st : Option TokenRecord)
    (provider : ℕ → ApiResponse α) :
    Except AuthError (ApiResponse α) × Option TokenRecord × ℕ :=
  match get_access_token env st with
  | (.error e, st1) => (.error e, st1, 0)
  | (.ok _, st1) =>
    let data0 := provider 0
    if isInvalidTokenResponse data0 then
      -- invalidate_token removes the token file, then get_headers re-auths
      match get_access_token env none with
      | (.error e, st2) => (.error e, st2, 1)
      | (.ok _, st3) => (.ok (provider 1), st3, 2)
    else
      (.ok data0, st1, 1)

end UpstoxFO

/-! ## C1: expired token never returned; AuthRequired when nothing obtainable -/

/-- **C1.** A persisted token whose `expires_at` lies in the past is
never returned by `get_access_token`: the call behaves exactly as if no
token were persisted (Valid→Expired→AwaitingUserCode).  In particular,
when no authorization code is obtainable the call fails with
AuthRequired and leaves the token file deleted; and in general, whenever
no valid token exists (no file, or an expired one) and no token can be
obtained, `get_access_token` fails with AuthRequired. -/
theorem C1_get_access_token_auth_required (env : UpstoxFO.AuthEnv)
    (r : UpstoxFO.TokenRecord) (hexp : env.now > r.expires_at.getD 0) :
    UpstoxFO.get_access_token env (some r) = UpstoxFO.get_access_token env none ∧
    (env.authCode = none →
      UpstoxFO.get_access_token env (some r) =
        (.error (.authRequired "Authorization failed"), none)) ∧
    (∀ st : Option UpstoxFO.TokenRecord,
      (st = none ∨ ∃ r', st = some r' ∧ env.now > r'.expires_at.getD 0) →
      ∀ e, UpstoxFO.acquire_new_token env = .error e →
      UpstoxFO.get_access_token env st = (.error e, none)) := by
  refine ⟨?_, ?_, ?_⟩
  · simp only [UpstoxFO.get_access_token, if_pos hexp]
  · intro hcode
    simp only [UpstoxFO.get_access_token, if_pos hexp, UpstoxFO.acquire_new_token, hcode]
  · rintro st (rfl | ⟨r', rfl, hexp'⟩) e he
    · simp only [UpstoxFO.get_access_token, he]
    · simp only [UpstoxFO.get_access_token, if_pos hexp', he]

/-- Witness for C1 at a concrete expired token and empty environment. -/
theorem C1_get_access_token_auth_required_witness :
    (100 : ℚ) > (Option.some (50 : ℚ)).getD 0 ∧
    UpstoxFO.get_access_token ⟨100, none, fun _ => none⟩
        (some ⟨"stale", some 50⟩) =
      (.error (.authRequired "Authorization failed"), none) := by
  refine ⟨by norm_num, ?_⟩
  exact (C1_get_access_token_auth_required ⟨100, none, fun _ => none⟩
    ⟨"stale", some 50⟩ (by norm_num)).2.1 rfl

/-! ## C2: exactly two HTTP attempts against an always-invalid-token provider -/

/-- **C2.** Against a provider stub whose every response is
`status="error"` with first error code `UDAPI100050`, `_make_api_call`
issues exactly two HTTP attempts — the original request and one retry
after invalidating the token — and propagates the second (still failing)
response to the caller; it never loops.  Hypotheses: the initial
`get_headers` succeeds (a token was in hand for the first attempt) and a
fresh token is obtainable for the retry. -/
theorem C2_make_api_call_two_attempts {α : Type} (env : UpstoxFO.AuthEnv)
    (st : Option UpstoxFO.TokenRecord) (provider : ℕ → UpstoxFO.ApiResponse α)
    (hinv : ∀ n, UpstoxFO.isInvalidTokenResponse (provider n) = true)
    (tok0 : String) (st0 : Option UpstoxFO.TokenRecord)
    (hfirst : UpstoxFO.get_access_token env st = (.ok tok0, st0))
    (tok1 : String) (rec1 : UpstoxFO.TokenRecord)
    (hfresh : UpstoxFO.acquire_new_token env = .ok (tok1, rec1)) :
    UpstoxFO.make_api_call env st provider = (.ok (provider 1), some rec1, 2) := by
  simp only [UpstoxFO.make_api_call, hfirst, hinv 0, if_true]
  simp only [UpstoxFO.get_access_token, hfresh]

/-- Witness for C2: a concrete always-invalid provider, a valid initial
token and a workable auth environment produce exactly two attempts. -/
theorem C2_make_api_call_two_attempts_witness :
    UpstoxFO.make_api_call (α := Unit)
        ⟨0, some "code", fun _ => some "tok1"⟩
        (some ⟨"tok0", some 10⟩)
        (fun _ => ⟨"error", [⟨some "UDAPI100050"⟩], ()⟩) =
      (.ok ⟨"error", [⟨some "UDAPI100050"⟩], ()⟩,
        some ⟨"tok1", some (0 + 24 * 3600)⟩, 2) := by
  exact C2_make_api_call_two_attempts
    ⟨0, some "code", fun _ => some "tok1"⟩
    (some ⟨"tok0", some 10⟩)
    (fun _ => ⟨"error", [⟨some "UDAPI100050"⟩], ()⟩)
    (fun _ => rfl)
    "tok0" (some ⟨"tok0", some 10⟩) (by norm_num [UpstoxFO.get_access_token])
    "tok1" ⟨"tok1", some (0 + 24 * 3600)⟩ rfl

namespace UpstoxFO

/-! ## Option chain data model -/

/-- `market_data` sub-object of one side of a chain item; every field is
optional because the code reads them with `.get` (with default `0` for
`volume`, `oi`, `prev_oi`). -/
structure MarketData where
  ltp : Option ℚ := none
  volume : Option ℚ := none
  oi : Option ℚ := none
  prev_oi : Option ℚ := none
  bid_price : Option ℚ := none
  ask_price : Option ℚ := none
  deriving DecidableEq, Repr

/-- `option_greeks` sub-object of one side of a chain item. -/
structure GreeksData where
  iv : Option ℚ := none
  delta : Option ℚ := none
  gamma : Option ℚ := none
  theta : Option ℚ := none
  vega : Option ℚ := none
  deriving DecidableEq, Repr

/-- One side (`call_options` / `put_options`) of a chain item; a missing
sub-object behaves as one with every field absent. -/
structure OptionSide where
  market_data : MarketData := {}
  option_greeks : GreeksData := {}
  deriving DecidableEq, Repr

/-- One element of the provider's option-chain `data` array. -/
structure ChainItem where
  strike_price : Option ℚ := none
  call_options : OptionSide := {}
  put_options : OptionSide := {}
  deriving DecidableEq, Repr

/-- One row of the option-chain DataFrame built by `get_option_chain`
(lines 513–539).  `total_gamma` models the column of the same name that
`calculate_greeks_analysis` adds in place: `none` while the column is
absent. -/
structure Row where
  strike : ℚ
  CE_LTP : Option ℚ := none
  CE_Volume : ℚ := 0
  CE_OI : ℚ := 0
  CE_OI_Prev : ℚ := 0
  CE_Bid : Option ℚ := none
  CE_Ask : Option ℚ := none
  CE_IV : Option ℚ := none
  CE_Delta : Option ℚ := none
  CE_Gamma : Option ℚ := none
  CE_Theta : Option ℚ := none
  CE_Vega : Option ℚ := none
  PE_LTP : Option ℚ := none
  PE_Volume : ℚ := 0
  PE_OI : ℚ := 0
  PE_OI_Prev : ℚ := 0
  PE_Bid : Option ℚ := none
  PE_Ask : Option ℚ := none
  PE_IV : Option ℚ := none
  PE_Delta : Option ℚ := none
  PE_Gamma : Option ℚ := none
  PE_Theta : Option ℚ := none
  PE_Vega : Option ℚ := none
  CE_OI_Change : ℚ := 0
  PE_OI_Change : ℚ := 0
  total_gamma : Option ℚ := none
  deriving DecidableEq, Repr

/-- The derived open-interest change of lines 538–539: Python's
`a - b if a and b else 0`, where `0` (and a missing value) is falsy. -/
def oiChange (oi oiPrev : ℚ) : ℚ :=
  if oi ≠ 0 ∧ oiPrev ≠ 0 then oi - oiPrev else 0

/-- The row-construction loop body of `get_option_chain`
(lines 500–541): items without a `strike_price` are skipped. -/
def build_row (item : ChainItem) : Option Row :=
  match item.strike_price with
  | none => none
  | some k =>
    let cm := item.call_options.market_data
    let cg := item.call_options.option_greeks
    let pm := item.put_options.market_data
    let pg := item.put_options.option_greeks
    some
      { strike := k
        CE_LTP := cm.ltp, CE_Volume := cm.volume.getD 0
        CE_OI := cm.oi.getD 0, CE_OI_Prev := cm.prev_oi.getD 0
        CE_Bid := cm.bid_price, CE_Ask := cm.ask_price
        CE_IV := cg.iv, CE_Delta := cg.delta, CE_Gamma := cg.gamma
        CE_Theta := cg.theta, CE_Vega := cg.vega
        PE_LTP := pm.ltp, PE_Volume := pm.volume.getD 0
        PE_OI := pm.oi.getD 0, PE_OI_Prev := pm.prev_oi.getD 0
        PE_Bid := pm.bid_price, PE_Ask := pm.ask_price
        PE_IV := pg.iv, PE_Delta := pg.delta, PE_Gamma := pg.gamma
        PE_Theta := pg.theta, PE_Vega := pg.vega
        CE_OI_Change := oiChange (cm.oi.getD 0) (cm.prev_oi.getD 0)
        PE_OI_Change := oiChange (pm.oi.getD 0) (pm.prev_oi.getD 0) }

/-- The full row loop: one row per item that carries a strike. -/
def build_rows (items : List ChainItem) : List Row :=
  items.filterMap build_row

/-- Stable insertion of a row into a strike-sorted list. -/
def insertByStrike (r : Row) : List Row → List Row
  | [] => [r]
  | x :: xs => if r.strike < x.strike then r :: x :: xs else x :: insertByStrike r xs

/-- `sort_values("strike")` on the freshly built frame (line 549),
realised as a stable insertion sort. -/
def sortByStrike : List Row → List Row
  | [] => []
  | r :: rs => insertByStrike r (sortByStrike rs)

/-- `UpstoxFOData._filter_liquid_strikes` (lines 730–755): the input is
copied, so only the returned frame is filtered; the two masks are
applied in sequence and the temporary columns are dropped. -/
def filter_liquid_strikes (chain : List Row) (spot maxd : ℚ) : List Row :=
  let withDist := chain.filter (fun r => |(r.strike - spot) / spot| * 100 ≤ maxd)
  withDist.filter (fun r =>
    (100 < r.CE_OI + r.PE_OI) || (10 < r.CE_Volume + r.PE_Volume) ||
      r.CE_IV.isSome || r.PE_IV.isSome)

/-! ## Analytics -/

/-- First index of the minimum of a list (`np.argmin` / `Series.idxmin`
on positional labels); `none` on the empty list, where numpy/pandas
raise. -/
def argminIdx? (l : List ℚ) : Option ℕ :=
  match l.min? with
  | none => none
  | some m => some (l.indexOf m)

/-- First index of the maximum of a list (`np.argmax` / `Series.idxmax`
on positional labels); `none` on the empty list. -/
def argmaxIdx? (l : List ℚ) : Option ℕ :=
  match l.max? with
  | none => none
  | some m => some (l.indexOf m)

/-- `int(q)`: Python truncation toward zero. -/
def intTrunc (q : ℚ) : ℤ :=
  if 0 ≤ q then Int.floor q else -Int.floor (-q)

def total_call_oi (chain : List Row) : ℚ := (chain.map (·.CE_OI)).sum
def total_put_oi (chain : List Row) : ℚ := (chain.map (·.PE_OI)).sum
def total_call_vol (chain : List Row) : ℚ := (chain.map (·.CE_Volume)).sum
def total_put_vol (chain : List Row) : ℚ := (chain.map (·.PE_Volume)).sum

structure PcrResult where
  pcr_oi : ℚ
  pcr_volume : ℚ
  total_call_oi : ℤ
  total_put_oi : ℤ
  sentiment : String
  interpretation : String
  deriving DecidableEq, Repr

/-- `UpstoxFOData.calculate_pcr` (lines 770–797): the `if/elif/else`
chain on `pcr_oi` selects the sentiment and interpretation of the one
returned record. -/
def calculate_pcr (chain : List Row) : PcrResult :=
  let tco := total_call_oi chain
  let tpo := total_put_oi chain
  let tcv := total_call_vol chain
  let tpv := total_put_vol chain
  let pcr_oi : ℚ := if tco > 0 then tpo / tco else 0
  let pcr_vol : ℚ := if tcv > 0 then tpv / tcv else 0
  { pcr_oi := pcr_oi
    pcr_volume := pcr_vol
    total_call_oi := intTrunc tco
    total_put_oi := intTrunc tpo
    sentiment :=
      if pcr_oi > 1.4 then "OVERSOLD"
      else if pcr_oi < 0.6 then "OVERBOUGHT"
      else "NEUTRAL"
    interpretation :=
      if pcr_oi > 1.4 then "Excessive put buildup - potential bounce"
      else if pcr_oi < 0.6 then "Excessive call buildup - potential correction"
      else "Balanced options activity" }

/-- The pain sum of one candidate strike (lines 804–811): call OI times
distance over strikes strictly below `K`, plus put OI times distance
over strikes strictly above `K`. -/
def painAt (chain : List Row) (K : ℚ) : ℚ :=
  ((chain.filter (fun r => r.strike < K)).map (fun r => r.CE_OI * (K - r.strike))).sum +
    ((chain.filter (fun r => K < r.strike)).map (fun r => r.PE_OI * (r.strike - K))).sum

structure MaxPainResult where
  max_pain_strike : ℚ
  distance_pct : ℚ
  deriving DecidableEq, Repr

/-- `UpstoxFOData.calculate_max_pain` (lines 799–822); `none` models the
`ValueError` `np.argmin` raises on an empty sequence. -/
def calculate_max_pain (chain : List Row) (current_price : ℚ) : Option MaxPainResult :=
  let strikes := chain.map (·.strike)
  let pains := strikes.map (painAt chain)
  match argminIdx? pains with
  | none => none
  | some i =>
    match strikes.get? i with
    | none => none
    | some K => some ⟨K, (K - current_price) / current_price * 100⟩

/-- The per-row total-gamma value the greeks analysis assigns to the
new `total_gamma` column (lines 690–693). -/
def totalGammaOf (r : Row) : ℚ :=
  r.CE_Gamma.getD 0 * r.CE_OI + r.PE_Gamma.getD 0 * r.PE_OI

structure GreeksResult where
  net_delta : ℚ
  max_gamma_strike : ℚ
  total_theta : ℚ
  total_vega : ℚ
  atm_call_iv : Option ℚ
  atm_put_iv : Option ℚ
  deriving DecidableEq, Repr

/-- `UpstoxFOData.calculate_greeks_analysis` (lines 669–728).  The
second component of the result is the caller's chain object after the
call: the function assigns the `total_gamma` column on its argument
without copying, so the post-chain carries the new column.  `none`
models the exception `idxmin`/`idxmax` raise on an empty frame. -/
def calculate_greeks_analysis (chain : List Row) (spot : ℚ) :
    Option (GreeksResult × List Row) :=
  match argminIdx? (chain.map (fun r => |r.strike - spot|)) with
  | none => none
  | some ai =>
    match chain.get? ai with
    | none => none
    | some atm =>
      let total_call_delta := (chain.map (fun r => r.CE_Delta.getD 0 * r.CE_OI)).sum
      let total_put_delta := (chain.map (fun r => r.PE_Delta.getD 0 * r.PE_OI)).sum
      let net_delta := total_call_delta + total_put_delta
      let chain' := chain.map (fun r => { r with total_gamma := some (totalGammaOf r) })
      match argmaxIdx? (chain'.map (fun r => r.total_gamma.getD 0)) with
      | none => none
      | some gi =>
        match chain'.get? gi with
        | none => none
        | some g =>
          some
            ({ net_delta := net_delta
               max_gamma_strike := g.strike
               total_theta := (chain.map (fun r => r.CE_Theta.getD 0 * r.CE_OI)).sum +
                 (chain.map (fun r => r.PE_Theta.getD 0 * r.PE_OI)).sum
               total_vega := (chain.map (fun r => r.CE_Vega.getD 0 * r.CE_OI)).sum +
                 (chain.map (fun r => r.PE_Vega.getD 0 * r.PE_OI)).sum
               atm_call_iv := atm.CE_IV
               atm_put_iv := atm.PE_IV }, chain')

structure OiResult where
  call_resistance : ℚ
  put_support : ℚ
  call_buildups : List ℚ
  put_buildups : List ℚ
  deriving DecidableEq, Repr

/-- `DataFrame.nlargest(n, col)` with the default `keep="first"`:
stable descending sort, then the first `n` rows. -/
def nlargestBy (n : ℕ) (f : Row → ℚ) (l : List Row) : List Row :=
  (l.mergeSort (fun a b => f b ≤ f a)).take n

/-- `UpstoxFOData.get_oi_analysis` (lines 824–837); `none` models the
exception `idxmax` raises on an empty frame. -/
def get_oi_analysis (chain : List Row) : Option OiResult :=
  match argmaxIdx? (chain.map (·.CE_OI)) with
  | none => none
  | some ci =>
    match chain.get? ci with
    | none => none
    | some cr =>
      match argmaxIdx? (chain.map (·.PE_OI)) with
      | none => none
      | some pi_ =>
        match chain.get? pi_ with
        | none => none
        | some pr =>
          let call_buildup :=
            nlargestBy 5 (·.CE_OI_Change) (chain.filter (fun r => 0 < r.CE_OI_Change))
          let put_buildup :=
            nlargestBy 5 (·.PE_OI_Change) (chain.filter (fun r => 0 < r.PE_OI_Change))
          some
            { call_resistance := cr.strike
              put_support := pr.strike
              call_buildups := call_buildup.map (·.strike)
              put_buildups := put_buildup.map (·.strike) }

end UpstoxFO

namespace UpstoxFO

/-! ## Calendar model for the expiry resolver -/

/-- Gregorian leap-year rule (`calendar.isleap` semantics, as used by
`calendar.monthrange`). -/
def isLeap (y : ℕ) : Bool :=
  y % 4 == 0 && (y % 100 != 0 || y % 400 == 0)

/-- `calendar.monthrange(y, m)[1]`: number of days of month `m`. -/
def daysInMonth (y m : ℕ) : ℕ :=
  if m = 2 then (if isLeap y then 29 else 28)
  else if m = 4 ∨ m = 6 ∨ m = 9 ∨ m = 11 then 30
  else 31

/-- A civil date. -/
structure Date where
  y : ℕ
  m : ℕ
  d : ℕ
  deriving DecidableEq, Repr

/-- A well-formed date (positive year so the weekday formula's year
adjustment never underflows). -/
def Date.valid (dt : Date) : Prop :=
  1 ≤ dt.y ∧ 1 ≤ dt.m ∧ dt.m ≤ 12 ∧ 1 ≤ dt.d ∧ dt.d ≤ daysInMonth dt.y dt.m

instance (dt : Date) : Decidable dt.valid := by
  unfold Date.valid; infer_instance

/-- Sakamoto month offsets. -/
def monthTable : ℕ → ℕ
  | 1 => 0 | 2 => 3 | 3 => 2 | 4 => 5 | 5 => 0 | 6 => 3
  | 7 => 5 | 8 => 1 | 9 => 4 | 10 => 6 | 11 => 2 | 12 => 4
  | _ => 0

/-- `datetime.weekday()`: Monday = 0 … Sunday = 6, computed with
Sakamoto's congruence. -/
def pyWeekday (dt : Date) : ℕ :=
  let yy := if dt.m < 3 then dt.y - 1 else dt.y
  (yy + yy / 4 + yy / 400 + monthTable dt.m + dt.d + 6 - yy / 100) % 7

/-- The day after `dt`. -/
def Date.next (dt : Date) : Date :=
  if dt.d < daysInMonth dt.y dt.m then ⟨dt.y, dt.m, dt.d + 1⟩
  else if dt.m < 12 then ⟨dt.y, dt.m + 1, 1⟩
  else ⟨dt.y + 1, 1, 1⟩

/-- `dt + timedelta(days = k)`. -/
def addDays (dt : Date) : ℕ → Date
  | 0 => dt
  | k + 1 => (addDays dt k).next

theorem daysInMonth_ge_28 (y m : ℕ) : 28 ≤ daysInMonth y m := by
  unfold daysInMonth; split <;> [split <;> omega; split <;> omega]

theorem pyWeekday_lt_7 (dt : Date) : pyWeekday dt < 7 :=
  Nat.mod_lt _ (by norm_num)

theorem Date.next_valid {dt : Date} (h : dt.valid) : dt.next.valid := by
  obtain ⟨y, m, d⟩ := dt
  obtain ⟨h1, h2, h3, h4, h5⟩ := h
  simp only at h1 h2 h3 h4 h5
  simp only [Date.next]
  split
  · refine ⟨h1, h2, h3, ?_, ?_⟩ <;> dsimp only <;> omega
  · split
    · have h28 := daysInMonth_ge_28 y (m + 1)
      refine ⟨h1, ?_, ?_, ?_, ?_⟩ <;> dsimp only <;> omega
    · have h28 := daysInMonth_ge_28 (y + 1) 1
      refine ⟨?_, ?_, ?_, ?_, ?_⟩ <;> dsimp only <;> omega

theorem addDays_valid {dt : Date} (h : dt.valid) (k : ℕ) : (addDays dt k).valid := by
  induction k with
  | zero => exact h
  | succ n ih => exact Date.next_valid ih

theorem isLeap_iff (y : ℕ) :
    isLeap y = true ↔ y % 4 = 0 ∧ (y % 100 ≠ 0 ∨ y % 400 = 0) := by
  simp [isLeap]

theorem daysInMonth_two (y : ℕ) :
    daysInMonth y 2 = if y % 4 = 0 ∧ (y % 100 ≠ 0 ∨ y % 400 = 0) then 29 else 28 := by
  unfold daysInMonth
  simp only [isLeap_iff, if_true, if_pos rfl]

/-- Day-of-week advances by one each day: the coherence of the Sakamoto
formula with calendar day succession. -/
theorem pyWeekday_next {dt : Date} (h : dt.valid) :
    pyWeekday dt.next = (pyWeekday dt + 1) % 7 := by
  obtain ⟨y, m, d⟩ := dt
  obtain ⟨hy, hm1, hm2, hd1, hd2⟩ := h
  simp only at hy hm1 hm2 hd1 hd2
  unfold Date.next
  dsimp only
  by_cases hlt : d < daysInMonth y m
  · rw [if_pos hlt]
    unfold pyWeekday
    dsimp only
    generalize (if m < 3 then y - 1 else y) = yy
    generalize monthTable m = t
    omega
  · rw [if_neg hlt]
    have hd : d = daysInMonth y m := le_antisymm hd2 (le_of_not_lt hlt)
    subst hd
    by_cases hm12 : m < 12
    · rw [if_pos hm12]
      unfold pyWeekday
      dsimp only
      by_cases hm2' : m = 2
      · subst hm2'
        rw [daysInMonth_two]
        norm_num [monthTable]
        by_cases hc : y % 4 = 0 ∧ (y % 100 ≠ 0 ∨ y % 400 = 0)
        · rw [if_pos hc]
          obtain ⟨h4, hor⟩ := hc
          have e4 : y / 4 = (y - 1) / 4 + 1 := by omega
          rcases hor with h100 | h400
          · have h400 : y % 400 ≠ 0 := by omega
            have e100 : y / 100 = (y - 1) / 100 := by omega
            have e400 : y / 400 = (y - 1) / 400 := by omega
            rw [e4, e100, e400]; omega
          · have h100 : y % 100 = 0 := by omega
            have e100 : y / 100 = (y - 1) / 100 + 1 := by omega
            have e400 : y / 400 = (y - 1) / 400 + 1 := by omega
            rw [e4, e100, e400]; omega
        · rw [if_neg hc]
          push_neg at hc
          by_cases h4 : y % 4 = 0
          · obtain ⟨h100, h400⟩ := hc h4
            have e4 : y / 4 = (y - 1) / 4 + 1 := by omega
            have e100 : y / 100 = (y - 1) / 100 + 1 := by omega
            have e400 : y / 400 = (y - 1) / 400 := by omega
            rw [e4, e100, e400]; omega
          · have h100 : y % 100 ≠ 0 := by omega
            have h400 : y % 400 ≠ 0 := by omega
            have e4 : y / 4 = (y - 1) / 4 := by omega
            have e100 : y / 100 = (y - 1) / 100 := by omega
            have e400 : y / 400 = (y - 1) / 400 := by omega
            rw [e4, e100, e400]; omega
      · have : m = 1 ∨ m = 3 ∨ m = 4 ∨ m = 5 ∨ m = 6 ∨ m = 7 ∨ m = 8 ∨
            m = 9 ∨ m = 10 ∨ m = 11 := by omega
        rcases this with rfl | rfl | rfl | rfl | rfl | rfl | rfl | rfl | rfl | rfl <;>
          norm_num [monthTable, daysInMonth] <;> omega
    · rw [if_neg hm12]
      have hm : m = 12 := by omega
      subst hm
      unfold pyWeekday
      dsimp only
      norm_num [monthTable, daysInMonth]
      omega

end UpstoxFO

namespace UpstoxFO

theorem pyWeekday_addDays {dt : Date} (h : dt.valid) (k : ℕ) :
    pyWeekday (addDays dt k) = (pyWeekday dt + k) % 7 := by
  induction k with
  | zero => simp [addDays, Nat.mod_eq_of_lt (pyWeekday_lt_7 dt)]
  | succ n ih =>
    have hv := addDays_valid h n
    calc pyWeekday (addDays dt (n + 1))
        = (pyWeekday (addDays dt n) + 1) % 7 := pyWeekday_next hv
      _ = ((pyWeekday dt + n) % 7 + 1) % 7 := by rw [ih]
      _ = (pyWeekday dt + (n + 1)) % 7 := by omega

/-! ## Expiry resolver fallback (`_get_fallback_expiry`) -/

/-- Whether `pat` is an initial segment of `s`. -/
def startsWithPat : List Char → List Char → Bool
  | [], _ => true
  | _ :: _, [] => false
  | p :: ps, c :: cs => p == c && startsWithPat ps cs

/-- Whether `pat` occurs contiguously inside `s`. -/
def containsPat (pat : List Char) : List Char → Bool
  | [] => startsWithPat pat []
  | c :: rest => startsWithPat pat (c :: rest) || containsPat pat rest

/-- Python `pat in s` substring containment. -/
def hasSubstr (s pat : String) : Bool :=
  containsPat pat.data s.data

/-- The index test of line 927: `"Nifty" in symbol or "Bank Nifty" in
symbol`. -/
def is_index_symbol (symbol : String) : Bool :=
  hasSubstr symbol "Nifty" || hasSubstr symbol "Bank Nifty"

/-- `datetime.now()`: the current civil date and hour. -/
structure NowTime where
  date : Date
  hour : ℕ
  deriving DecidableEq, Repr

/-- Civil-date strict ordering (Python `date <`). -/
def Date.lt' (a b : Date) : Prop :=
  a.y < b.y ∨ (a.y = b.y ∧ (a.m < b.m ∨ (a.m = b.m ∧ a.d < b.d)))

instance (a b : Date) : Decidable (a.lt' b) := by
  unfold Date.lt'; infer_instance

/-- `days_until_tuesday` of lines 929–933: `(1 - weekday + 7) % 7`,
forced to a full week when today is Tuesday at or past 15:00. -/
def tuesdayOffset (w hour : ℕ) : ℕ :=
  let k := (1 + 7 - w) % 7
  if k = 0 ∧ 15 ≤ hour then 7 else k

/-- Lines 941–944 (and 953–956): the last Thursday of month `(y, m)`,
computed from the month's last day by stepping back
`(weekday - 3 + 7) % 7` days. -/
def lastThursdayOf (y m : ℕ) : Date :=
  let lastDay := daysInMonth y m
  let w := pyWeekday ⟨y, m, lastDay⟩
  ⟨y, m, lastDay - (w + 7 - 3) % 7⟩

/-- `UpstoxFOData._get_fallback_expiry` (lines 923–960), returning the
computed expiry date (`strftime` formatting omitted). -/
def get_fallback_expiry (symbol : String) (now : NowTime) : Date :=
  if is_index_symbol symbol then
    addDays now.date (tuesdayOffset (pyWeekday now.date) now.hour)
  else
    let y := now.date.y
    let m := now.date.m
    let lt := lastThursdayOf y m
    if lt.lt' now.date ∨ (lt = now.date ∧ 15 ≤ now.hour) then
      if m + 1 > 12 then lastThursdayOf (y + 1) 1 else lastThursdayOf y (m + 1)
    else lt

/-- Spec reading of the index rule: the next Tuesday — the closest day
(today included) whose weekday is Tuesday — rolling to the following
week when today is a Tuesday at or past 15:00 local time. -/
def spec_next_tuesday (now : NowTime) : Date :=
  if pyWeekday now.date = 1 ∧ 15 ≤ now.hour then addDays now.date 7
  else
    match (List.range 7).find? (fun k => pyWeekday (addDays now.date k) == 1) with
    | some k => addDays now.date k
    | none => now.date

/-- Spec reading of "the last Thursday of the month": the greatest day
of the month whose weekday is Thursday. -/
def spec_last_thursday (y m : ℕ) : Date :=
  ⟨y, m, Nat.findGreatest (fun d => pyWeekday ⟨y, m, d⟩ = 3) (daysInMonth y m)⟩

/-- Spec reading of the stock rule: the last Thursday of the current
month, rolling to the last Thursday of the next month when that date
has passed (or is today at or past 15:00). -/
def spec_stock_expiry (now : NowTime) : Date :=
  let lt := spec_last_thursday now.date.y now.date.m
  if lt.lt' now.date ∨ (lt = now.date ∧ 15 ≤ now.hour) then
    if now.date.m = 12 then spec_last_thursday (now.date.y + 1) 1
    else spec_last_thursday now.date.y (now.date.m + 1)
  else lt

end UpstoxFO

namespace UpstoxFO

/-- Within one month the weekday formula advances by one per day. -/
theorem pyWeekday_day_shift (y m : ℕ) (d1 d2 : ℕ) (h : d1 ≤ d2) :
    pyWeekday ⟨y, m, d2⟩ = (pyWeekday ⟨y, m, d1⟩ + (d2 - d1)) % 7 := by
  unfold pyWeekday
  dsimp only
  generalize (if m < 3 then y - 1 else y) = Y
  generalize monthTable m = t
  omega

/-- The code's step-back-from-month-end computation returns exactly the
spec's last Thursday of the month, and its weekday is Thursday. -/
theorem lastThursdayOf_eq_spec (y m : ℕ) :
    lastThursdayOf y m = spec_last_thursday y m ∧
      pyWeekday (lastThursdayOf y m) = 3 := by
  have h28 := daysInMonth_ge_28 y m
  have hw7 : pyWeekday ⟨y, m, daysInMonth y m⟩ < 7 := pyWeekday_lt_7 _
  have hoff7 : (pyWeekday ⟨y, m, daysInMonth y m⟩ + 7 - 3) % 7 < 7 :=
    Nat.mod_lt _ (by norm_num)
  have hthu : pyWeekday
      ⟨y, m, daysInMonth y m -
        (pyWeekday ⟨y, m, daysInMonth y m⟩ + 7 - 3) % 7⟩ = 3 := by
    have hk := pyWeekday_day_shift y m
      (daysInMonth y m - (pyWeekday ⟨y, m, daysInMonth y m⟩ + 7 - 3) % 7)
      (daysInMonth y m) (by omega)
    have hlt := pyWeekday_lt_7
      (⟨y, m, daysInMonth y m -
        (pyWeekday ⟨y, m, daysInMonth y m⟩ + 7 - 3) % 7⟩ : Date)
    omega
  have hfg : Nat.findGreatest (fun d => pyWeekday ⟨y, m, d⟩ = 3) (daysInMonth y m) =
      daysInMonth y m - (pyWeekday ⟨y, m, daysInMonth y m⟩ + 7 - 3) % 7 := by
    rw [Nat.findGreatest_eq_iff]
    refine ⟨by omega, fun _ => hthu, ?_⟩
    intro n h1 h2
    have hk := pyWeekday_day_shift y m n (daysInMonth y m) h2
    have hlt := pyWeekday_lt_7 (⟨y, m, n⟩ : Date)
    omega
  constructor
  · unfold lastThursdayOf spec_last_thursday
    dsimp only
    rw [hfg]
  · exact hthu

/-- Evaluation of the least-Tuesday search over a week, given today's
weekday. -/
theorem range7_find_tuesday (w : ℕ) (hw : w < 7) :
    (List.range 7).find? (fun k => (w + k) % 7 == 1) = some ((1 + 7 - w) % 7) := by
  interval_cases w <;> rfl

end UpstoxFO

/-! ## C8: calendar fallback of the expiry resolver -/

/-- **C8.** For a symbol the Instrument Index cannot serve, the calendar
fallback returns: for index symbols, the date of the next Tuesday,
rolling to the following week when today is a Tuesday at or past 15:00;
for stock symbols, the last Thursday of the current month, rolling to
the last Thursday of the next month when that date (or its 15:00 cutoff
on the day itself) has passed.  The returned day is a Tuesday
(resp. Thursday). -/
theorem C8_fallback_expiry_calendar (symbol : String) (now : UpstoxFO.NowTime)
    (hv : now.date.valid) :
    (UpstoxFO.is_index_symbol symbol = true →
      UpstoxFO.get_fallback_expiry symbol now = UpstoxFO.spec_next_tuesday now ∧
      UpstoxFO.pyWeekday (UpstoxFO.get_fallback_expiry symbol now) = 1) ∧
    (UpstoxFO.is_index_symbol symbol = false →
      UpstoxFO.get_fallback_expiry symbol now = UpstoxFO.spec_stock_expiry now ∧
      UpstoxFO.pyWeekday (UpstoxFO.get_fallback_expiry symbol now) = 3) := by
  have hw7 : UpstoxFO.pyWeekday now.date < 7 := UpstoxFO.pyWeekday_lt_7 _
  constructor
  · intro hidx
    have hrw : (fun k => UpstoxFO.pyWeekday (UpstoxFO.addDays now.date k) == 1) =
        (fun k => (UpstoxFO.pyWeekday now.date + k) % 7 == 1) :=
      funext fun k => by rw [UpstoxFO.pyWeekday_addDays hv]
    unfold UpstoxFO.get_fallback_expiry UpstoxFO.spec_next_tuesday UpstoxFO.tuesdayOffset
    rw [hidx, if_pos rfl, hrw,
      UpstoxFO.range7_find_tuesday _ (UpstoxFO.pyWeekday_lt_7 _)]
    dsimp only
    by_cases hcut : UpstoxFO.pyWeekday now.date = 1 ∧ 15 ≤ now.hour
    · have hz : (1 + 7 - UpstoxFO.pyWeekday now.date) % 7 = 0 ∧ 15 ≤ now.hour := by
        constructor
        · rw [hcut.1]
        · exact hcut.2
      rw [if_pos hz, if_pos hcut]
      refine ⟨rfl, ?_⟩
      rw [UpstoxFO.pyWeekday_addDays hv, hcut.1]
    · have hz : ¬((1 + 7 - UpstoxFO.pyWeekday now.date) % 7 = 0 ∧ 15 ≤ now.hour) := by
        intro ⟨a, b⟩
        exact hcut ⟨by omega, b⟩
      rw [if_neg hz, if_neg hcut]
      refine ⟨rfl, ?_⟩
      rw [UpstoxFO.pyWeekday_addDays hv]
      omega
  · intro hidx
    have hm12' : now.date.m ≤ 12 := hv.2.2.1
    obtain ⟨heq, hthu⟩ :=
      UpstoxFO.lastThursdayOf_eq_spec now.date.y now.date.m
    unfold UpstoxFO.get_fallback_expiry UpstoxFO.spec_stock_expiry
    rw [hidx]
    simp only [Bool.false_eq_true, if_false]
    rw [← heq]
    by_cases hpass :
        (UpstoxFO.lastThursdayOf now.date.y now.date.m).lt' now.date ∨
          (UpstoxFO.lastThursdayOf now.date.y now.date.m = now.date ∧ 15 ≤ now.hour)
    · rw [if_pos hpass, if_pos hpass]
      by_cases hm12 : now.date.m = 12
      · have hgt : now.date.m + 1 > 12 := by omega
        rw [if_pos hgt, if_pos hm12,
          ← (UpstoxFO.lastThursdayOf_eq_spec (now.date.y + 1) 1).1]
        exact ⟨rfl, (UpstoxFO.lastThursdayOf_eq_spec (now.date.y + 1) 1).2⟩
      · have hgt : ¬(now.date.m + 1 > 12) := by omega
        rw [if_neg hgt, if_neg hm12,
          ← (UpstoxFO.lastThursdayOf_eq_spec now.date.y (now.date.m + 1)).1]
        exact ⟨rfl, (UpstoxFO.lastThursdayOf_eq_spec now.date.y (now.date.m + 1)).2⟩
    · rw [if_neg hpass, if_neg hpass]
      exact ⟨rfl, hthu⟩

/-- Witness for C8 at Sunday 2025-10-12, 10:00: the index fallback gives
Tuesday 2025-10-14 and the stock fallback gives Thursday 2025-10-30. -/
theorem C8_fallback_expiry_calendar_witness :
    (⟨2025, 10, 12⟩ : UpstoxFO.Date).valid ∧
    UpstoxFO.get_fallback_expiry "Nifty 50" ⟨⟨2025, 10, 12⟩, 10⟩ = ⟨2025, 10, 14⟩ ∧
    UpstoxFO.get_fallback_expiry "RELIANCE" ⟨⟨2025, 10, 12⟩, 10⟩ = ⟨2025, 10, 30⟩ := by
  have hv : (⟨2025, 10, 12⟩ : UpstoxFO.Date).valid := by decide
  have h := C8_fallback_expiry_calendar "Nifty 50" ⟨⟨2025, 10, 12⟩, 10⟩ hv
  have h2 := C8_fallback_expiry_calendar "RELIANCE" ⟨⟨2025, 10, 12⟩, 10⟩ hv
  refine ⟨hv, ?_, ?_⟩
  · rw [(h.1 (by decide)).1]
    decide
  · rw [(h2.2 (by decide)).1]
    decide

namespace UpstoxFO

theorem min?_spec {l : List ℚ} {m : ℚ} (h : l.min? = some m) :
    m ∈ l ∧ ∀ x ∈ l, m ≤ x := by
  have anti : Std.Antisymm (α := ℚ) (· ≤ ·) := ⟨fun h1 h2 => le_antisymm h1 h2⟩
  rw [List.min?_eq_some_iff (fun a => le_refl a) (fun a b => min_choice a b)
    (fun _ _ _ => le_min_iff)] at h
  exact h

theorem max?_spec {l : List ℚ} {m : ℚ} (h : l.max? = some m) :
    m ∈ l ∧ ∀ x ∈ l, x ≤ m := by
  have anti : Std.Antisymm (α := ℚ) (· ≤ ·) := ⟨fun h1 h2 => le_antisymm h1 h2⟩
  rw [List.max?_eq_some_iff (fun a => le_refl a) (fun a b => max_choice a b)
    (fun _ _ _ => max_le_iff)] at h
  exact h

theorem argminIdx?_spec {l : List ℚ} {i : ℕ} (h : argminIdx? l = some i) :
    ∃ m, l.get? i = some m ∧ ∀ x ∈ l, m ≤ x := by
  unfold argminIdx? at h
  cases hmin : l.min? with
  | none => rw [hmin] at h; cases h
  | some m =>
    rw [hmin] at h
    obtain ⟨hmem, hle⟩ := min?_spec hmin
    cases h
    exact ⟨m, List.indexOf_get? hmem, hle⟩

theorem argmaxIdx?_spec {l : List ℚ} {i : ℕ} (h : argmaxIdx? l = some i) :
    ∃ m, l.get? i = some m ∧ ∀ x ∈ l, x ≤ m := by
  unfold argmaxIdx? at h
  cases hmax : l.max? with
  | none => rw [hmax] at h; cases h
  | some m =>
    rw [hmax] at h
    obtain ⟨hmem, hle⟩ := max?_spec hmax
    cases h
    exact ⟨m, List.indexOf_get? hmem, hle⟩

theorem argminIdx?_isSome {l : List ℚ} (h : l ≠ []) :
    ∃ i, argminIdx? l = some i := by
  cases l with
  | nil => exact absurd rfl h
  | cons x xs => exact ⟨_, rfl⟩

end UpstoxFO

/-! ## C10: empty chain makes the analytics entry points raise -/

/-- **C10.** The analytics entry points require a non-empty chain: on
the empty chain (which the liquidity filter can produce),
`calculate_max_pain`, `calculate_greeks_analysis` and `get_oi_analysis`
all hit `argmin`/`idxmin`/`idxmax` on an empty sequence and raise
(modelled as `none`) instead of returning a DataUnavailable-style
result. -/
theorem C10_empty_chain_analytics_raise :
    (∀ p : ℚ, UpstoxFO.calculate_max_pain [] p = none) ∧
    (∀ s : ℚ, UpstoxFO.calculate_greeks_analysis [] s = none) ∧
    UpstoxFO.get_oi_analysis [] = none :=
  ⟨fun _ => rfl, fun _ => rfl, rfl⟩

/-! ## C7: PCR value and sentiment bands -/

/-- **C7.** `calculate_pcr` returns `pcr_oi = totalPutOI / totalCallOI`
when total call OI is positive and `0` (not an error) when it is zero;
the sentiment classification is total and mutually exclusive:
OVERSOLD iff `pcr_oi > 1.4`, OVERBOUGHT iff `pcr_oi < 0.6`, NEUTRAL
iff `0.6 ≤ pcr_oi ≤ 1.4`. -/
theorem C7_calculate_pcr_bands (chain : List UpstoxFO.Row) :
    (0 < UpstoxFO.total_call_oi chain →
      (UpstoxFO.calculate_pcr chain).pcr_oi =
        UpstoxFO.total_put_oi chain / UpstoxFO.total_call_oi chain) ∧
    (UpstoxFO.total_call_oi chain = 0 → (UpstoxFO.calculate_pcr chain).pcr_oi = 0) ∧
    ((UpstoxFO.calculate_pcr chain).sentiment = "OVERSOLD" ↔
      (UpstoxFO.calculate_pcr chain).pcr_oi > 1.4) ∧
    ((UpstoxFO.calculate_pcr chain).sentiment = "OVERBOUGHT" ↔
      (UpstoxFO.calculate_pcr chain).pcr_oi < 0.6) ∧
    ((UpstoxFO.calculate_pcr chain).sentiment = "NEUTRAL" ↔
      (0.6 ≤ (UpstoxFO.calculate_pcr chain).pcr_oi ∧
        (UpstoxFO.calculate_pcr chain).pcr_oi ≤ 1.4)) := by
  have hv : (UpstoxFO.calculate_pcr chain).pcr_oi =
      if UpstoxFO.total_call_oi chain > 0 then
        UpstoxFO.total_put_oi chain / UpstoxFO.total_call_oi chain
      else 0 := rfl
  have hs : (UpstoxFO.calculate_pcr chain).sentiment =
      if (UpstoxFO.calculate_pcr chain).pcr_oi > 1.4 then "OVERSOLD"
      else if (UpstoxFO.calculate_pcr chain).pcr_oi < 0.6 then "OVERBOUGHT"
      else "NEUTRAL" := rfl
  set P := (UpstoxFO.calculate_pcr chain).pcr_oi with hP
  refine ⟨fun hpos => by rw [hv, if_pos hpos], fun hz => by rw [hv, hz]; simp,
    ?_, ?_, ?_⟩ <;> rw [hs] <;>
    by_cases hA : P > 1.4 <;> by_cases hB : P < 0.6 <;>
    simp only [hA, hB, if_true, if_false, if_pos, if_neg, not_true, not_false_iff] <;>
    norm_num <;> try constructor
  all_goals first
    | decide
    | (intro hcon; exact absurd hcon (by decide))
    | (intro hcon; linarith)
    | linarith

unseal Rat.add Rat.mul Rat.sub Rat.inv Rat.ofScientific in
/-- Witness for C7 at a one-row chain with call OI 10 and put OI 20
(pcr_oi = 2, OVERSOLD). -/
theorem C7_calculate_pcr_bands_witness :
    (0:ℚ) < UpstoxFO.total_call_oi [{ strike := 100, CE_OI := 10, PE_OI := 20 }] ∧
    (UpstoxFO.calculate_pcr [{ strike := 100, CE_OI := 10, PE_OI := 20 }]).pcr_oi =
      UpstoxFO.total_put_oi [{ strike := 100, CE_OI := 10, PE_OI := 20 }] /
        UpstoxFO.total_call_oi [{ strike := 100, CE_OI := 10, PE_OI := 20 }] ∧
    (UpstoxFO.calculate_pcr [{ strike := 100, CE_OI := 10, PE_OI := 20 }]).sentiment =
      "OVERSOLD" := by
  refine ⟨by decide, (C7_calculate_pcr_bands _).1 (by decide), ?_⟩
  exact ((C7_calculate_pcr_bands
    [{ strike := 100, CE_OI := 10, PE_OI := 20 }]).2.2.1).2 (by decide)

/-! ## C6: max pain minimizes the pain sum -/

namespace UpstoxFO

/-- The chain of the spec's worked example: strikes [100, 110, 120],
call OI [0, 50, 0], put OI [0, 50, 0]. -/
def mpExampleChain : List Row :=
  [{ strike := 100, CE_OI := 0, PE_OI := 0 },
   { strike := 110, CE_OI := 50, PE_OI := 50 },
   { strike := 120, CE_OI := 0, PE_OI := 0 }]

end UpstoxFO

unseal Rat.add Rat.mul Rat.sub Rat.inv in
/-- **C6.** For every non-empty chain, `calculate_max_pain` returns a
strike of the chain whose pain sum (call OI times distance over strikes
strictly below, plus put OI times distance over strikes strictly above)
is minimal among all strikes of the chain; on the spec's example the
result is strike 110. -/
theorem C6_calculate_max_pain_minimizes (chain : List UpstoxFO.Row) (price : ℚ)
    (h : chain ≠ []) :
    (∃ K dist, UpstoxFO.calculate_max_pain chain price = some ⟨K, dist⟩ ∧
      K ∈ chain.map (·.strike) ∧
      (∀ s ∈ chain.map (·.strike),
        UpstoxFO.painAt chain K ≤ UpstoxFO.painAt chain s) ∧
      dist = (K - price) / price * 100) ∧
    UpstoxFO.calculate_max_pain UpstoxFO.mpExampleChain 100 = some ⟨110, 10⟩ := by
  constructor
  · have hs : chain.map (·.strike) ≠ [] := by
      intro hc; exact h (List.map_eq_nil_iff.1 hc)
    have hp : (chain.map (·.strike)).map (UpstoxFO.painAt chain) ≠ [] := by
      intro hc; exact hs (List.map_eq_nil_iff.1 hc)
    obtain ⟨i, hi⟩ := UpstoxFO.argminIdx?_isSome hp
    obtain ⟨m, hget, hle⟩ := UpstoxFO.argminIdx?_spec hi
    have hilen : i < ((chain.map (·.strike)).map (UpstoxFO.painAt chain)).length := by
      obtain ⟨hlt, -⟩ := List.get?_eq_some.1 hget
      exact hlt
    have hilen' : i < (chain.map (·.strike)).length := by
      rw [List.length_map] at hilen; exact hilen
    obtain ⟨K, hK⟩ : ∃ K, (chain.map (·.strike)).get? i = some K :=
      ⟨_, List.get?_eq_get hilen'⟩
    have hKm : UpstoxFO.painAt chain K = m := by
      have := List.get?_map (UpstoxFO.painAt chain) (chain.map (·.strike)) i
      rw [hget, hK] at this
      simpa using this.symm
    refine ⟨K, (K - price) / price * 100, ?_, ?_, ?_, rfl⟩
    · unfold UpstoxFO.calculate_max_pain
      dsimp only
      rw [hi]
      dsimp only
      rw [hK]
    · exact List.get?_mem hK
    · intro s hsmem
      rw [hKm]
      exact hle _ (List.mem_map_of_mem _ hsmem)
  · decide

unseal Rat.add Rat.mul Rat.sub Rat.inv in
/-- Witness for C6: the general part applied to the example chain. -/
theorem C6_calculate_max_pain_minimizes_witness :
    UpstoxFO.mpExampleChain ≠ [] ∧
    (∃ K dist,
      UpstoxFO.calculate_max_pain UpstoxFO.mpExampleChain 100 = some ⟨K, dist⟩ ∧
      K ∈ UpstoxFO.mpExampleChain.map (·.strike) ∧
      (∀ s ∈ UpstoxFO.mpExampleChain.map (·.strike),
        UpstoxFO.painAt UpstoxFO.mpExampleChain K ≤
          UpstoxFO.painAt UpstoxFO.mpExampleChain s) ∧
      dist = (K - 100) / 100 * 100) := by
  refine ⟨by decide, ?_⟩
  exact (C6_calculate_max_pain_minimizes UpstoxFO.mpExampleChain 100 (by decide)).1

/-! ## C4: analytics purity and the in-place total_gamma column -/

namespace UpstoxFO

/-- A minimal liquid one-row chain (all optional columns absent). -/
def oneRowChain : List Row := [{ strike := 100 }]

end UpstoxFO

unseal Rat.add Rat.mul Rat.sub Rat.inv in
/-- **C4 (counterexample).** The analytics are not all pure with respect
to the caller's chain: `calculate_greeks_analysis` returns successfully
on a non-empty chain yet leaves the caller's chain object changed — the
`total_gamma` column has been added in place. -/
theorem C4_greeks_mutation_counterexample :
    (UpstoxFO.calculate_greeks_analysis UpstoxFO.oneRowChain 100).isSome = true ∧
    (UpstoxFO.calculate_greeks_analysis UpstoxFO.oneRowChain 100).map Prod.snd ≠
      some UpstoxFO.oneRowChain := by
  exact ⟨by decide, by decide⟩

/-- **C4 (amended).** The liquidity filter, PCR, max pain and OI
analysis perform no in-place operation on the caller's chain (they are
embedded as pure functions of it), but `calculate_greeks_analysis`
assigns the `total_gamma` column on its argument without copying: after
every successful call the caller's chain equals the original with
exactly that one column set per row (`total_gamma := callGamma×callOI +
putGamma×putOI`); rows, row order and all other cells are unchanged. -/
theorem C4_greeks_assigns_total_gamma_only (chain : List UpstoxFO.Row) (spot : ℚ)
    (res : UpstoxFO.GreeksResult × List UpstoxFO.Row)
    (h : UpstoxFO.calculate_greeks_analysis chain spot = some res) :
    res.2 = chain.map
      (fun r => { r with total_gamma := some (UpstoxFO.totalGammaOf r) }) := by
  unfold UpstoxFO.calculate_greeks_analysis at h
  dsimp only at h
  split at h
  · cases h
  · split at h
    · cases h
    · split at h
      · cases h
      · split at h
        · cases h
        · cases h
          rfl

unseal Rat.add Rat.mul Rat.sub Rat.inv in
/-- Witness for the amended C4 at the one-row chain. -/
theorem C4_greeks_assigns_total_gamma_only_witness :
    UpstoxFO.calculate_greeks_analysis UpstoxFO.oneRowChain 100 =
      some (⟨0, 100, 0, 0, none, none⟩,
        [{ strike := 100, total_gamma := some 0 }]) ∧
    (⟨(⟨0, 100, 0, 0, none, none⟩ : UpstoxFO.GreeksResult),
        ([{ strike := 100, total_gamma := some 0 }] : List UpstoxFO.Row)⟩ :
        UpstoxFO.GreeksResult × List UpstoxFO.Row).2 =
      UpstoxFO.oneRowChain.map
        (fun r => { r with total_gamma := some (UpstoxFO.totalGammaOf r) }) :=
  ⟨by decide,
    C4_greeks_assigns_total_gamma_only UpstoxFO.oneRowChain 100
      ⟨⟨0, 100, 0, 0, none, none⟩, [{ strike := 100, total_gamma := some 0 }]⟩
      (by decide)⟩

namespace UpstoxFO

/-! ## Key resolver (`_get_instrument_key`) -/

/-- The spot descriptor of a symbol entry of `instrument_master.json`;
`instrument_key` is read with `.get`, so it may be absent. -/
structure SpotData where
  instrument_key : Option String
  deriving DecidableEq, Repr

/-- One option contract of the Instrument Index, with the fields the
preprocessing ETL writes for `CE`/`PE` rows. -/
structure OptContract where
  expiry : String
  strike : ℚ
  option_type : String
  instrument_key : Option String
  deriving DecidableEq, Repr

/-- One futures contract of the Instrument Index. -/
structure FutContract where
  expiry : String
  instrument_key : Option String
  deriving DecidableEq, Repr

/-- One symbol entry of `instrument_master.json`; an absent collection
behaves as the empty list (`symbol_data.get(instrument_type, [])`). -/
structure SymbolData where
  SPOT : Option SpotData := none
  OPTIDX : List OptContract := []
  OPTSTK : List OptContract := []
  FUTIDX : List FutContract := []
  FUTSTK : List FutContract := []
  deriving DecidableEq, Repr

/-- The whole instrument master, keyed by canonical symbol. -/
abbrev Master := List (String × SymbolData)

/-- The symbol-normalization rules of lines 57–65 (also used by
`_get_next_expiry`). -/
def normalize_symbol (s : String) : String :=
  if s = "Nifty 50" then "^NSEI"
  else if s = "Bank Nifty" then "^NSEBANK"
  else if s = "Nifty Midcap 100" then "NIFTY_MIDCAP_100.NS"
  else if ¬s.startsWith "^" ∧ ¬s.endsWith ".NS" then s ++ ".NS"
  else s

/-- `symbol_data.get(instrument_type, [])` for the two option
collections. -/
def optListOf (sd : SymbolData) (instrument_type : String) : List OptContract :=
  if instrument_type = "OPTIDX" then sd.OPTIDX
  else if instrument_type = "OPTSTK" then sd.OPTSTK
  else []

/-- `symbol_data.get(instrument_type, [])` for the two futures
collections. -/
def futListOf (sd : SymbolData) (instrument_type : String) : List FutContract :=
  if instrument_type = "FUTIDX" then sd.FUTIDX
  else if instrument_type = "FUTSTK" then sd.FUTSTK
  else []

/-- Python truthiness of an optional string argument: `None` and the
empty string are falsy. -/
def truthyStr (o : Option String) : Bool :=
  match o with
  | none => false
  | some s => s ≠ ""

/-- Python truthiness of an optional float argument: `None` and `0.0`
are falsy. -/
def truthyQ (o : Option ℚ) : Bool :=
  match o with
  | none => false
  | some q => q ≠ 0

/-- The body of `_get_instrument_key` once a symbol entry is found
(lines 77–98): SPOT lookup, then the option-contract scan (guarded by
type membership and truthiness of all three request fields, returning
the first exact `(expiry, strike, option_type)` match's key), then the
futures scan, else `None`. -/
def resolve_in_symbol_data (sd : SymbolData) (instrument_type : String)
    (expiry_date : Option String) (strike_price : Option ℚ)
    (option_type : Option String) : Option String :=
  if instrument_type = "SPOT" then
    match sd.SPOT with
    | some sp => sp.instrument_key
    | none => none
  else
    match
      (if (instrument_type = "OPTIDX" ∨ instrument_type = "OPTSTK") ∧
          truthyStr expiry_date ∧ truthyQ strike_price ∧ truthyStr option_type then
        (optListOf sd instrument_type).find? (fun c =>
          c.expiry = expiry_date.getD "" ∧ c.strike = strike_price.getD 0 ∧
            c.option_type = option_type.getD "")
      else none) with
    | some c => c.instrument_key
    | none =>
      match
        (if (instrument_type = "FUTIDX" ∨ instrument_type = "FUTSTK") ∧
            truthyStr expiry_date then
          (futListOf sd instrument_type).find? (fun c =>
            c.expiry = expiry_date.getD "")
        else none) with
      | some c => c.instrument_key
      | none => none

/-- `_get_instrument_key` (lines 42–98): empty-master guard, symbol
normalization, lookup under the normalized then the original key, then
the per-entry resolution. -/
def get_instrument_key (master : Master) (symbol : String)
    (instrument_type : String) (expiry_date : Option String := none)
    (strike_price : Option ℚ := none) (option_type : Option String := none) :
    Option String :=
  if master = ([] : Master) then none
  else
    match List.lookup (normalize_symbol symbol) master with
    | some sd => resolve_in_symbol_data sd instrument_type expiry_date strike_price option_type
    | none =>
      match List.lookup symbol master with
      | some sd => resolve_in_symbol_data sd instrument_type expiry_date strike_price option_type
      | none => none

end UpstoxFO

/-! ## C9: exact-match option resolution against the Instrument Index -/

/-- **C9.** For a symbol present in the Instrument Index and an option
kind (`OPTIDX`/`OPTSTK`), `_get_instrument_key` returns the instrument
key of the first contract of the matching list whose
`(expiry, strike, option_type)` equal the requested values exactly, and
`None` (NotFound, a normal outcome) when no contract matches — for all
requested expiry, strike and option type, given the data-model
invariants of the index (no contract has a zero strike, an empty expiry
or an empty option type). -/
theorem C9_resolver_exact_match (master : UpstoxFO.Master) (symbol : String)
    (sd : UpstoxFO.SymbolData) (instrument_type : String)
    (hm : master ≠ [])
    (hfound : List.lookup (UpstoxFO.normalize_symbol symbol) master = some sd)
    (hit : instrument_type = "OPTIDX" ∨ instrument_type = "OPTSTK")
    (hwf : ∀ c ∈ UpstoxFO.optListOf sd instrument_type,
      c.strike ≠ 0 ∧ c.expiry ≠ "" ∧ c.option_type ≠ "")
    (e : String) (k : ℚ) (t : String) :
    UpstoxFO.get_instrument_key master symbol instrument_type (some e) (some k) (some t) =
      match (UpstoxFO.optListOf sd instrument_type).find? (fun c =>
          c.expiry = e ∧ c.strike = k ∧ c.option_type = t) with
      | some c => c.instrument_key
      | none => none := by
  have hns : instrument_type ≠ "SPOT" := by
    rcases hit with rfl | rfl <;> decide
  have hnf : ¬(instrument_type = "FUTIDX" ∨ instrument_type = "FUTSTK") := by
    rcases hit with rfl | rfl <;> decide
  have hfut :
      ¬((instrument_type = "FUTIDX" ∨ instrument_type = "FUTSTK") ∧
        UpstoxFO.truthyStr (some e) = true) := fun hc => hnf hc.1
  unfold UpstoxFO.get_instrument_key
  rw [if_neg hm, hfound]
  unfold UpstoxFO.resolve_in_symbol_data
  dsimp only
  rw [if_neg hns]
  by_cases hg : (instrument_type = "OPTIDX" ∨ instrument_type = "OPTSTK") ∧
      UpstoxFO.truthyStr (some e) = true ∧ UpstoxFO.truthyQ (some k) = true ∧
      UpstoxFO.truthyStr (some t) = true
  · rw [if_pos hg]
    simp only [Option.getD_some]
    cases hfind : (UpstoxFO.optListOf sd instrument_type).find? (fun c =>
        c.expiry = e ∧ c.strike = k ∧ c.option_type = t) with
    | some c => rfl
    | none => rw [if_neg hfut]
  · rw [if_neg hg, if_neg hfut]
    have hfind : (UpstoxFO.optListOf sd instrument_type).find? (fun c =>
        c.expiry = e ∧ c.strike = k ∧ c.option_type = t) = none := by
      rw [List.find?_eq_none]
      intro c hc hpred
      simp only [decide_eq_true_eq] at hpred
      obtain ⟨hs0, he0, ht0⟩ := hwf c hc
      exact hg ⟨hit, by simp [UpstoxFO.truthyStr, ← hpred.1, he0],
        by simp [UpstoxFO.truthyQ, ← hpred.2.1, hs0],
        by simp [UpstoxFO.truthyStr, ← hpred.2.2, ht0]⟩
    rw [hfind]

namespace UpstoxFO

/-- A one-symbol instrument master holding a single index call. -/
def wSymbolData : SymbolData :=
  { SPOT := none
    OPTIDX := [⟨"2025-10-14", 25000, "CE", some "NSE_FO|12345"⟩]
    OPTSTK := [], FUTIDX := [], FUTSTK := [] }

/-- A concrete master for the resolver witness. -/
def wMaster : Master := [("^NSEI", wSymbolData)]

end UpstoxFO

/-- Witness for C9: resolving the one stored contract returns its key. -/
theorem C9_resolver_exact_match_witness :
    UpstoxFO.wMaster ≠ [] ∧
    UpstoxFO.get_instrument_key UpstoxFO.wMaster "Nifty 50" "OPTIDX"
        (some "2025-10-14") (some 25000) (some "CE") = some "NSE_FO|12345" := by
  refine ⟨by decide, ?_⟩
  rw [C9_resolver_exact_match UpstoxFO.wMaster "Nifty 50" UpstoxFO.wSymbolData
    "OPTIDX" (by decide) (by decide) (Or.inl rfl) (by decide)
    "2025-10-14" 25000 "CE"]
  decide

namespace UpstoxFO

/-! ## Market data client: option chain, holdings, positions -/

/-- The failures `get_option_chain` can raise: a propagated auth
exception, the `RuntimeError(f"Option chain failed: {data}")` carrying
the raw provider envelope, and the missing-spot-price error. -/
inductive FetchError where
  | authFailure (e : AuthError)
  | optionChainFailed (resp : ApiResponse (List ChainItem))
  | spotUnavailable (symbol : String)
  deriving DecidableEq

/-- `key.replace("|", ":")`. -/
def replaceBarColon (s : String) : String :=
  String.map (fun c => if c = '|' then ':' else c) s

/-- Environment of one `get_option_chain` call: the auth environment,
the provider's chain endpoint (responses per requested instrument key
and per HTTP attempt of that logical call), and the result of the
embedded `get_spot_price` call. -/
structure ChainEnv where
  auth : AuthEnv
  http : String → String → ℕ → ApiResponse (List ChainItem)
  spot : Option ℚ

/-- Lines 494–552 of `get_option_chain` after a successful envelope:
fetch the spot price (raising when unavailable), build the rows, and
return the empty frame or the sorted, liquidity-filtered frame. -/
def finish_chain (env : ChainEnv) (symbol : String) (max_distance_pct : ℚ)
    (d : ApiResponse (List ChainItem)) (st : Option TokenRecord) (n : ℕ) :
    Except FetchError (List Row × ℚ) × Option TokenRecord × ℕ :=
  match env.spot with
  | none => (.error (.spotUnavailable symbol), st, n)
  | some sp =>
    let rows := build_rows d.data
    if rows = [] then (.ok ([], sp), st, n)
    else (.ok (filter_liquid_strikes (sortByStrike rows) sp max_distance_pct, sp), st, n)

/-- Line 491's final status check: a still-failing envelope raises
`RuntimeError` carrying the raw response. -/
def final_chain_check (env : ChainEnv) (symbol : String) (max_distance_pct : ℚ)
    (d : ApiResponse (List ChainItem)) (st : Option TokenRecord) (n : ℕ) :
    Except FetchError (List Row × ℚ) × Option TokenRecord × ℕ :=
  if d.status ≠ "success" then (.error (.optionChainFailed d), st, n)
  else finish_chain env symbol max_distance_pct d st n

/-- Lines 486–489: the last fallback reissues the call with
`NSE_EQ|{symbol}` unless the symbol is one of the two named indices. -/
def chain_third_attempt (env : ChainEnv) (symbol : String) (expiry_date : String)
    (max_distance_pct : ℚ)
    (d : ApiResponse (List ChainItem)) (st : Option TokenRecord) (n : ℕ) :
    Except FetchError (List Row × ℚ) × Option TokenRecord × ℕ :=
  if d.status ≠ "success" ∧ symbol ≠ "Nifty 50" ∧ symbol ≠ "Bank Nifty" then
    match make_api_call env.auth st (env.http ("NSE_EQ|" ++ symbol) expiry_date) with
    | (.error e, st3, n3) => (.error (.authFailure e), st3, n + n3)
    | (.ok d3, st3, n3) => final_chain_check env symbol max_distance_pct d3 st3 (n + n3)
  else final_chain_check env symbol max_distance_pct d st n

/-- `UpstoxFOData.get_option_chain` (lines 433–552) with the expiry
date already supplied (line 445's expiry resolution is a separate
call).  Returns the result, the token-file post-state and the total
number of HTTP attempts. -/
def get_option_chain (env : ChainEnv) (st : Option TokenRecord)
    (km : String → Option String) (master : Master) (symbol : String)
    (expiry_date : String) (max_distance_pct : ℚ) :
    Except FetchError (List Row × ℚ) × Option TokenRecord × ℕ :=
  let chain_instrument_key :=
    if symbol = "Nifty 50" then "NSE_INDEX|Nifty 50"
    else if symbol = "Bank Nifty" then "NSE_INDEX|Nifty Bank"
    else
      match get_instrument_key master symbol "SPOT" none none none with
      | some k0 =>
        match km k0 with
        | some mapped => mapped
        | none => k0
      | none => "NSE_EQ|" ++ symbol
  match make_api_call env.auth st (env.http chain_instrument_key expiry_date) with
  | (.error e, st1, n1) => (.error (.authFailure e), st1, n1)
  | (.ok d1, st1, n1) =>
    if d1.status = "success" then
      finish_chain env symbol max_distance_pct d1 st1 n1
    else
      -- lines 479-483: separator-variant retry for NSE_EQ keys
      if hasSubstr chain_instrument_key "NSE_EQ" && hasSubstr chain_instrument_key "|" then
        match make_api_call env.auth st1
            (env.http (replaceBarColon chain_instrument_key) expiry_date) with
        | (.error e, st2, n2) => (.error (.authFailure e), st2, n1 + n2)
        | (.ok d2, st2, n2) =>
          chain_third_attempt env symbol expiry_date max_distance_pct d2 st2 (n1 + n2)
      else
        chain_third_attempt env symbol expiry_date max_distance_pct d1 st1 n1

/-- `UpstoxFOData.get_holdings` (lines 407–418): both raised exceptions
and error envelopes produce the empty list. -/
def get_holdings (env : AuthEnv) (provider : ℕ → ApiResponse (List String))
    (st : Option TokenRecord) : List String × Option TokenRecord × ℕ :=
  match make_api_call env st provider with
  | (.error _, st1, n) => ([], st1, n)
  | (.ok d, st1, n) => ((if d.status = "success" then d.data else []), st1, n)

/-- `UpstoxFOData.get_positions` (lines 420–431): identical handling
against the positions endpoint. -/
def get_positions (env : AuthEnv) (provider : ℕ → ApiResponse (List String))
    (st : Option TokenRecord) : List String × Option TokenRecord × ℕ :=
  match make_api_call env st provider with
  | (.error _, st1, n) => ([], st1, n)
  | (.ok d, st1, n) => ((if d.status = "success" then d.data else []), st1, n)

end UpstoxFO

/-! ## C3: non-auth errors — what actually propagates -/

/-- **C3 (counterexample).** Non-auth provider errors are not
propagated by every read operation: `get_holdings` against a provider
that rejects the call with a non-auth error returns the empty list —
indistinguishable from a successful empty portfolio — and carries no
raw payload and no typed failure. -/
theorem C3_holdings_swallow_error_counterexample :
    UpstoxFO.get_holdings ⟨0, some "c", fun _ => some "tok"⟩
        (fun _ => ⟨"error", [⟨some "UDAPI100011"⟩], ["raw-provider-payload"]⟩)
        (some ⟨"tok", some 10⟩) =
      (([] : List String), some ⟨"tok", some 10⟩, 1) ∧
    UpstoxFO.get_holdings ⟨0, some "c", fun _ => some "tok"⟩
        (fun _ => ⟨"error", [⟨some "UDAPI100011"⟩], ["raw-provider-payload"]⟩)
        (some ⟨"tok", some 10⟩) =
      UpstoxFO.get_holdings ⟨0, some "c", fun _ => some "tok"⟩
        (fun _ => ⟨"success", [], []⟩) (some ⟨"tok", some 10⟩) :=
  ⟨rfl, rfl⟩

namespace UpstoxFO

theorem startsWithPat_self_append (p s : List Char) :
    startsWithPat p (p ++ s) = true := by
  induction p with
  | nil => rfl
  | cons c cs ih => simp [startsWithPat, ih]

theorem containsPat_self_append (p s : List Char) :
    containsPat p (p ++ s) = true := by
  cases hps : p ++ s with
  | nil =>
    obtain ⟨rfl, rfl⟩ := List.append_eq_nil.mp hps
    rfl
  | cons c rest =>
    rw [containsPat, ← hps, startsWithPat_self_append, Bool.true_or]

theorem containsPat_append_right (p pre s : List Char) (h : containsPat p s = true) :
    containsPat p (pre ++ s) = true := by
  induction pre with
  | nil => simpa using h
  | cons c cs ih => rw [List.cons_append, containsPat, ih, Bool.or_true]

/-- The constructed stock fallback key always contains `"NSE_EQ"`. -/
theorem hasSubstr_stock_key_nse_eq (symbol : String) :
    hasSubstr ("NSE_EQ|" ++ symbol) "NSE_EQ" = true := by
  unfold hasSubstr
  have hdata : ("NSE_EQ|" ++ symbol).data = "NSE_EQ".data ++ ('|' :: symbol.data) := by
    rw [String.data_append, show "NSE_EQ|".data = "NSE_EQ".data ++ ['|'] from by decide,
      List.append_assoc, List.singleton_append]
  rw [hdata]
  exact containsPat_self_append _ _

/-- The constructed stock fallback key always contains `"|"`. -/
theorem hasSubstr_stock_key_bar (symbol : String) :
    hasSubstr ("NSE_EQ|" ++ symbol) "|" = true := by
  unfold hasSubstr
  have hdata : ("NSE_EQ|" ++ symbol).data = "NSE_EQ".data ++ ('|' :: symbol.data) := by
    rw [String.data_append, show "NSE_EQ|".data = "NSE_EQ".data ++ ['|'] from by decide,
      List.append_assoc, List.singleton_append]
  rw [hdata]
  exact containsPat_append_right _ _ _ (containsPat_self_append "|".data symbol.data)

/-- A token handed out by `get_access_token` is backed by an unexpired
persisted record. -/
theorem get_access_token_ok_not_expired (env : AuthEnv) (st : Option TokenRecord)
    (tok : String) (st1 : Option TokenRecord)
    (h : get_access_token env st = (.ok tok, st1)) :
    ∃ r, st1 = some r ∧ r.access_token = tok ∧ ¬env.now > r.expires_at.getD 0 := by
  have hacq : ∀ (t : String) (rec : TokenRecord), acquire_new_token env = .ok (t, rec) →
      rec.access_token = t ∧ rec.expires_at = some (env.now + 24 * 3600) := by
    intro t rec ha
    unfold acquire_new_token at ha
    cases hc : env.authCode with
    | none => rw [hc] at ha; dsimp only at ha; cases ha
    | some code =>
      rw [hc] at ha
      dsimp only at ha
      cases he : env.exchangeToken code with
      | none => rw [he] at ha; dsimp only at ha; cases ha
      | some tk => rw [he] at ha; dsimp only at ha; cases ha; exact ⟨rfl, rfl⟩
  cases st with
  | none =>
    unfold get_access_token at h
    dsimp only at h
    cases ha : acquire_new_token env with
    | error e => rw [ha] at h; dsimp only at h; cases h
    | ok p =>
      obtain ⟨t, rec⟩ := p
      rw [ha] at h
      dsimp only at h
      cases h
      obtain ⟨h1, h2⟩ := hacq _ _ ha
      refine ⟨rec, rfl, h1, ?_⟩
      rw [h2]
      simp only [Option.getD_some]
      push_neg
      linarith
  | some r =>
    unfold get_access_token at h
    dsimp only at h
    by_cases hexp : env.now > r.expires_at.getD 0
    · rw [if_pos hexp] at h
      cases ha : acquire_new_token env with
      | error e => rw [ha] at h; dsimp only at h; cases h
      | ok p =>
        obtain ⟨t, rec⟩ := p
        rw [ha] at h
        dsimp only at h
        cases h
        obtain ⟨h1, h2⟩ := hacq _ _ ha
        refine ⟨rec, rfl, h1, ?_⟩
        rw [h2]
        simp only [Option.getD_some]
        push_neg
        linarith
    · rw [if_neg hexp] at h
      cases h
      exact ⟨r, rfl, rfl, hexp⟩

/-- `get_access_token` is stable on its own post-state: a second call
from the state it left behind returns the same token and state (used
for the second and third HTTP attempts of one `get_option_chain`). -/
theorem get_access_token_stable (env : AuthEnv) (st : Option TokenRecord)
    (tok : String) (st1 : Option TokenRecord)
    (h : get_access_token env st = (.ok tok, st1)) :
    get_access_token env st1 = (.ok tok, st1) := by
  obtain ⟨r, rfl, htok, hexp⟩ := get_access_token_ok_not_expired env st tok _ h
  unfold get_access_token
  dsimp only
  rw [if_neg hexp, htok]

end UpstoxFO

/-- **C3 (amended).** For non-auth provider errors (any envelope whose
first error code is not the invalid-token code):
(i) `_make_api_call` issues exactly one HTTP attempt and hands the raw
envelope back — the token-refresh retry never fires;
(ii) `get_holdings` and `get_positions` swallow the error and return
the empty list (no typed failure, no payload);
(iii) `get_option_chain` for the two named index symbols ("Nifty 50"
and "Bank Nifty") raises after exactly one attempt, the raised failure
carrying the raw provider envelope;
(iv) for every other symbol absent from the index, `get_option_chain`
reissues the failing call with the two fallback instrument keys — the
separator variant and `NSE_EQ|{symbol}` again — for three HTTP
attempts in total, before raising the failure that carries the last
raw envelope. -/
theorem C3_nonauth_error_propagation :
    (∀ (α : Type) (env : UpstoxFO.AuthEnv) (st : Option UpstoxFO.TokenRecord)
        (provider : ℕ → UpstoxFO.ApiResponse α) (tok : String)
        (st1 : Option UpstoxFO.TokenRecord),
      UpstoxFO.get_access_token env st = (.ok tok, st1) →
      UpstoxFO.isInvalidTokenResponse (provider 0) = false →
      UpstoxFO.make_api_call env st provider = (.ok (provider 0), st1, 1)) ∧
    (∀ (env : UpstoxFO.AuthEnv) (st : Option UpstoxFO.TokenRecord)
        (provider : ℕ → UpstoxFO.ApiResponse (List String)) (tok : String)
        (st1 : Option UpstoxFO.TokenRecord),
      UpstoxFO.get_access_token env st = (.ok tok, st1) →
      UpstoxFO.isInvalidTokenResponse (provider 0) = false →
      (provider 0).status ≠ "success" →
      UpstoxFO.get_holdings env provider st = ([], st1, 1) ∧
      UpstoxFO.get_positions env provider st = ([], st1, 1)) ∧
    (∀ (env : UpstoxFO.ChainEnv) (st : Option UpstoxFO.TokenRecord)
        (km : String → Option String) (master : UpstoxFO.Master)
        (symbol key exp_ : String) (maxd : ℚ) (tok : String)
        (st1 : Option UpstoxFO.TokenRecord),
      ((symbol = "Nifty 50" ∧ key = "NSE_INDEX|Nifty 50") ∨
        (symbol = "Bank Nifty" ∧ key = "NSE_INDEX|Nifty Bank")) →
      UpstoxFO.get_access_token env.auth st = (.ok tok, st1) →
      UpstoxFO.isInvalidTokenResponse (env.http key exp_ 0) = false →
      (env.http key exp_ 0).status ≠ "success" →
      UpstoxFO.get_option_chain env st km master symbol exp_ maxd =
        (.error (.optionChainFailed (env.http key exp_ 0)), st1, 1)) ∧
    (∀ (env : UpstoxFO.ChainEnv) (st : Option UpstoxFO.TokenRecord)
        (km : String → Option String) (master : UpstoxFO.Master)
        (symbol exp_ : String) (maxd : ℚ) (tok : String)
        (st1 : Option UpstoxFO.TokenRecord),
      symbol ≠ "Nifty 50" → symbol ≠ "Bank Nifty" →
      UpstoxFO.get_instrument_key master symbol "SPOT" none none none = none →
      UpstoxFO.get_access_token env.auth st = (.ok tok, st1) →
      UpstoxFO.isInvalidTokenResponse (env.http ("NSE_EQ|" ++ symbol) exp_ 0) = false →
      (env.http ("NSE_EQ|" ++ symbol) exp_ 0).status ≠ "success" →
      UpstoxFO.isInvalidTokenResponse
        (env.http (UpstoxFO.replaceBarColon ("NSE_EQ|" ++ symbol)) exp_ 0) = false →
      (env.http (UpstoxFO.replaceBarColon ("NSE_EQ|" ++ symbol)) exp_ 0).status ≠ "success" →
      UpstoxFO.get_option_chain env st km master symbol exp_ maxd =
        (.error (.optionChainFailed (env.http ("NSE_EQ|" ++ symbol) exp_ 0)), st1, 3)) := by
  refine ⟨?_, ?_, ?_, ?_⟩
  · intro α env st provider tok st1 hfirst hninv
    simp only [UpstoxFO.make_api_call, hfirst, hninv, Bool.false_eq_true, if_false]
  · intro env st provider tok st1 hfirst hninv herr
    constructor <;>
      simp only [UpstoxFO.get_holdings, UpstoxFO.get_positions,
        UpstoxFO.make_api_call, hfirst, hninv, Bool.false_eq_true, if_false,
        if_neg herr]
  · intro env st km master symbol key exp_ maxd tok st1 hsym hfirst hninv herr
    rcases hsym with ⟨rfl, rfl⟩ | ⟨rfl, rfl⟩
    · unfold UpstoxFO.get_option_chain
      rw [if_pos rfl]
      simp only [UpstoxFO.make_api_call, hfirst, hninv, Bool.false_eq_true, if_false]
      rw [if_neg herr]
      rw [if_neg (show ¬(UpstoxFO.hasSubstr "NSE_INDEX|Nifty 50" "NSE_EQ" &&
        UpstoxFO.hasSubstr "NSE_INDEX|Nifty 50" "|") = true by decide)]
      unfold UpstoxFO.chain_third_attempt
      rw [if_neg (fun hc => hc.2.1 rfl)]
      unfold UpstoxFO.final_chain_check
      rw [if_pos herr]
    · unfold UpstoxFO.get_option_chain
      rw [if_neg (show ¬("Bank Nifty" = "Nifty 50") by decide), if_pos rfl]
      simp only [UpstoxFO.make_api_call, hfirst, hninv, Bool.false_eq_true, if_false]
      rw [if_neg herr]
      rw [if_neg (show ¬(UpstoxFO.hasSubstr "NSE_INDEX|Nifty Bank" "NSE_EQ" &&
        UpstoxFO.hasSubstr "NSE_INDEX|Nifty Bank" "|") = true by decide)]
      unfold UpstoxFO.chain_third_attempt
      rw [if_neg (fun hc => hc.2.2 rfl)]
      unfold UpstoxFO.final_chain_check
      rw [if_pos herr]
  · intro env st km master symbol exp_ maxd tok st1 hs1 hs2 hkey hfirst
      hninv1 herr1 hninv2 herr2
    have hstable := UpstoxFO.get_access_token_stable env.auth st tok st1 hfirst
    unfold UpstoxFO.get_option_chain
    rw [if_neg hs1, if_neg hs2, hkey]
    dsimp only
    simp only [UpstoxFO.make_api_call, hfirst, hstable, hninv1, hninv2,
      Bool.false_eq_true, if_false]
    rw [if_neg herr1]
    rw [if_pos (show (UpstoxFO.hasSubstr ("NSE_EQ|" ++ symbol) "NSE_EQ" &&
        UpstoxFO.hasSubstr ("NSE_EQ|" ++ symbol) "|") = true by
      rw [UpstoxFO.hasSubstr_stock_key_nse_eq, UpstoxFO.hasSubstr_stock_key_bar]
      rfl)]
    unfold UpstoxFO.chain_third_attempt
    rw [if_pos ⟨herr2, hs1, hs2⟩]
    simp only [UpstoxFO.make_api_call, hstable, hninv1, Bool.false_eq_true, if_false]
    unfold UpstoxFO.final_chain_check
    rw [if_pos herr1]

/-- Witness for the amended C3: the holdings clause and the
three-attempt stock-fallback clause at concrete non-auth error
environments. -/
theorem C3_nonauth_error_propagation_witness :
    UpstoxFO.get_access_token ⟨0, some "c", fun _ => some "tok"⟩
        (some ⟨"tok", some 10⟩) = (.ok "tok", some ⟨"tok", some 10⟩) ∧
    UpstoxFO.get_holdings ⟨0, some "c", fun _ => some "tok"⟩
        (fun _ => ⟨"error", [⟨some "UDAPI100011"⟩], ["p"]⟩)
        (some ⟨"tok", some 10⟩) = ([], some ⟨"tok", some 10⟩, 1) ∧
    UpstoxFO.get_option_chain
        ⟨⟨0, some "c", fun _ => some "tok"⟩,
          fun _ _ _ => ⟨"error", [⟨some "UDAPI100011"⟩], []⟩, some 100⟩
        (some ⟨"tok", some 10⟩) (fun _ => none) [] "RELIANCE" "2025-10-28" 12 =
      (.error (.optionChainFailed ⟨"error", [⟨some "UDAPI100011"⟩], []⟩),
        some ⟨"tok", some 10⟩, 3) :=
  ⟨rfl,
    (C3_nonauth_error_propagation.2.1
      ⟨0, some "c", fun _ => some "tok"⟩ (some ⟨"tok", some 10⟩)
      (fun _ => ⟨"error", [⟨some "UDAPI100011"⟩], ["p"]⟩) "tok"
      (some ⟨"tok", some 10⟩) rfl rfl (by decide)).1,
    C3_nonauth_error_propagation.2.2.2
      ⟨⟨0, some "c", fun _ => some "tok"⟩,
        fun _ _ _ => ⟨"error", [⟨some "UDAPI100011"⟩], []⟩, some 100⟩
      (some ⟨"tok", some 10⟩) (fun _ => none) [] "RELIANCE" "2025-10-28" 12
      "tok" (some ⟨"tok", some 10⟩)
      (by decide) (by decide) rfl rfl rfl (by decide) rfl (by decide)⟩

/-! ## C5: the derived open-interest change -/

namespace UpstoxFO

/-- A provider chain item with call `oi = 5`, `prev_oi = 0` (and a
liquid put side). -/
def c5Item : ChainItem :=
  { strike_price := some 100
    call_options := { market_data := { oi := some 5, prev_oi := some 0 } }
    put_options := { market_data := { oi := some 200, prev_oi := some 100 } } }

/-- The row `get_option_chain` builds from `c5Item`. -/
def c5Row : Row :=
  { strike := 100, CE_OI := 5, CE_OI_Prev := 0, PE_OI := 200, PE_OI_Prev := 100
    CE_OI_Change := 0, PE_OI_Change := 100 }

/-- A chain environment whose provider answers the chain request with
the single item `c5Item`. -/
def c5Env : ChainEnv :=
  ⟨⟨0, some "c", fun _ => some "tok"⟩,
    fun _ _ _ => ⟨"success", [], [c5Item]⟩, some 100⟩

end UpstoxFO

unseal Rat.add Rat.mul Rat.sub Rat.inv in
/-- **C5 (counterexample).** A row produced by `get_option_chain` from
a provider item with `oi = 5`, `oiPrev = 0` carries
`CE_OI_Change = 0`, not `oi − oiPrev = 5`: the derived change is not
`oi − oiPrev` when either value is zero. -/
theorem C5_oi_change_counterexample :
    UpstoxFO.get_option_chain UpstoxFO.c5Env (some ⟨"tok", some 10⟩)
        (fun _ => none) [] "Nifty 50" "2025-10-14" 12 =
      (.ok ([UpstoxFO.c5Row], 100), some ⟨"tok", some 10⟩, 1) ∧
    UpstoxFO.c5Row.CE_OI = 5 ∧ UpstoxFO.c5Row.CE_OI_Prev = 0 ∧
    UpstoxFO.c5Row.CE_OI_Change ≠ UpstoxFO.c5Row.CE_OI - UpstoxFO.c5Row.CE_OI_Prev := by
  refine ⟨by rfl, by decide, by decide, by decide⟩

/-- **C5 (amended).** For every row built by `get_option_chain`'s row
loop, the derived change equals `oi − oiPrev` only when both `oi` and
`oiPrev` are nonzero; when either is zero (Python-falsy) the change is
`0`, per side. -/
theorem C5_oi_change_guarded (item : UpstoxFO.ChainItem) (r : UpstoxFO.Row)
    (h : UpstoxFO.build_row item = some r) :
    (r.CE_OI ≠ 0 → r.CE_OI_Prev ≠ 0 → r.CE_OI_Change = r.CE_OI - r.CE_OI_Prev) ∧
    (r.CE_OI = 0 ∨ r.CE_OI_Prev = 0 → r.CE_OI_Change = 0) ∧
    (r.PE_OI ≠ 0 → r.PE_OI_Prev ≠ 0 → r.PE_OI_Change = r.PE_OI - r.PE_OI_Prev) ∧
    (r.PE_OI = 0 ∨ r.PE_OI_Prev = 0 → r.PE_OI_Change = 0) := by
  unfold UpstoxFO.build_row at h
  cases hsp : item.strike_price with
  | none => rw [hsp] at h; cases h
  | some k =>
    rw [hsp] at h
    dsimp only at h
    cases h
    dsimp only
    refine ⟨fun hA hB => ?_, fun hAB => ?_, fun hA hB => ?_, fun hAB => ?_⟩ <;>
      unfold UpstoxFO.oiChange
    · rw [if_pos ⟨hA, hB⟩]
    · rw [if_neg (fun hc => by rcases hAB with h | h; exacts [hc.1 h, hc.2 h])]
    · rw [if_pos ⟨hA, hB⟩]
    · rw [if_neg (fun hc => by rcases hAB with h | h; exacts [hc.1 h, hc.2 h])]

unseal Rat.add Rat.mul Rat.sub Rat.inv in
/-- Witness for the amended C5 at `c5Item`: the zero `prev_oi` forces a
zero derived change. -/
theorem C5_oi_change_guarded_witness :
    UpstoxFO.build_row UpstoxFO.c5Item = some UpstoxFO.c5Row ∧
    (UpstoxFO.c5Row.CE_OI = 0 ∨ UpstoxFO.c5Row.CE_OI_Prev = 0) ∧
    UpstoxFO.c5Row.CE_OI_Change = 0 :=
  ⟨by decide, Or.inr (by decide),
    (C5_oi_change_guarded UpstoxFO.c5Item UpstoxFO.c5Row (by decide)).2.1
      (Or.inr (by decide))⟩
